import Mathlib

/-!
Verification of the `stats` package (src/stats/stats.go) of the k6 repository.

Modelling conventions:
* Go strings are modelled as `List Char` (`Str`); Go `map[string]string` as an
  association list with distinct keys (`GoMap`), the representation every
  constructor in this file maintains.
* A possibly-nil Go pointer `*SampleTags` is modelled as `Option STags`;
  a Go nil map is collapsed to the empty list where the two are
  observationally equal for the modelled operations.
* Run-time panics are made explicit through `GoResult`.
* Go `int` enumeration values (`MetricType`, `ValueType`) are modelled as `Int`
  so that out-of-range values are expressible.
-/

set_option autoImplicit false

abbrev Str := List Char

/-- Convert a Lean string literal to the character-list model. -/
def strOf (s : String) : Str := s.toList

/-- Left curly brace character (written numerically). -/
def curlyOpen : Char := Char.ofNat 123

/-- Right curly brace character (written numerically). -/
def curlyClose : Char := Char.ofNat 125

/-- Go `strings.Split(s, sep)` for a one-character separator `c`
(every separator in stats.go is one character). `Split("", c) = [""]`. -/
def goSplit : Str → Char → List Str
  | [], _ => [[]]
  | x :: rest, c =>
    if x = c then [] :: goSplit rest c
    else
      match goSplit rest c with
      | [] => [[x]]
      | h :: t => (x :: h) :: t

/-- Go `strings.SplitN(s, sep, 2)` for a one-character separator: split at the
first occurrence of `c`; `none` when `c` does not occur (Go then returns the
one-element slice `[s]`). -/
def goSplitFirst : Str → Char → Option (Str × Str)
  | [], _ => none
  | x :: rest, c =>
    if x = c then some ([], rest)
    else (goSplitFirst rest c).map fun p => (x :: p.1, p.2)

/-- Remove the leading and trailing characters satisfying `p`
(shared core of Go `strings.Trim` and `strings.TrimSpace`). -/
def goTrimBoth (p : Char → Bool) (s : Str) : Str :=
  ((s.dropWhile p).reverse.dropWhile p).reverse

/-- Go `strings.Trim(s, cutset)`: remove leading and trailing characters
contained in `cutset`. -/
def goTrim (s : Str) (cutset : List Char) : Str :=
  goTrimBoth (fun c => cutset.contains c) s

/-- Go `unicode.IsSpace` restricted to Latin-1 (space, tab, newline, vertical
tab, form feed, carriage return, NEL, NBSP). Code points of the Unicode `Zs`
category above Latin-1 are not modelled; no claim involves them. -/
def goIsSpace (c : Char) : Bool :=
  c.val == 32 || (9 ≤ c.val && c.val ≤ 13) || c.val == 133 || c.val == 160

/-- Go `strings.TrimSpace`. -/
def goTrimSpace (s : Str) : Str := goTrimBoth goIsSpace s

/-- `stripPre pre l` removes the prefix `pre` from `l`, or `none` if `pre` is
not a prefix of `l` (helper for `goTrimSuffix`, operating on reversals). -/
def stripPre : Str → Str → Option Str
  | [], s => some s
  | _ :: _, [] => none
  | a :: pre, b :: s => if a = b then stripPre pre s else none

/-- Go `strings.TrimSuffix(s, suffix)`: remove one occurrence of `suffix` from
the end of `s` if present, otherwise return `s` unchanged. -/
def goTrimSuffix (s suffix : Str) : Str :=
  match stripPre suffix.reverse s.reverse with
  | some rest => rest.reverse
  | none => s

/-- The cutset of Go raw string with a double and a single quote, used by
`NewSubmetric` to trim quoting characters. -/
def quoteCutset : List Char := [Char.ofNat 34, Char.ofNat 39]

/-- Model of a Go `map[string]string`: an association list whose keys are kept
distinct by `goMapInsert` (Go map iteration order is irrelevant to every
claim, which only observes lookups, length and content equality). -/
abbrev GoMap := List (Str × Str)

/-- Go map lookup `m[k]` (the `value, ok` form without the default). -/
def goMapLookup : GoMap → Str → Option Str
  | [], _ => none
  | p :: rest, k => if p.1 = k then some p.2 else goMapLookup rest k

/-- Go map assignment `m[k] = v`: replace the entry with key `k` in place,
or append a new entry when `k` is absent. -/
def goMapInsert : GoMap → Str → Str → GoMap
  | [], k, v => [(k, v)]
  | p :: rest, k, v => if p.1 = k then (k, v) :: rest else p :: goMapInsert rest k v

/-- First-`some` choice on options (`Option.orElse` without the thunk,
for convenient rewriting). -/
def optOrElse (a b : Option Str) : Option Str :=
  match a with
  | some v => some v
  | none => b

-- ## Basic lemmas about the string and map primitives

theorem stripPre_output_mem {pre l r : Str} (h : stripPre pre l = some r) :
    ∀ x, x ∈ r → x ∈ l := by
  induction pre generalizing l with
  | nil =>
    simp [stripPre] at h
    simp [h]
  | cons a pre ih =>
    cases l with
    | nil => simp [stripPre] at h
    | cons b bs =>
      by_cases hab : a = b
      · simp [stripPre, hab] at h
        intro x hx
        exact List.mem_cons_of_mem _ (ih h x hx)
      · simp [stripPre, hab] at h

theorem goTrimSuffix_single (xs : Str) (c : Char) :
    goTrimSuffix (xs ++ [c]) [c] = xs := by
  simp [goTrimSuffix, stripPre]

theorem mem_goTrimSuffix {s : Str} (suffix : Str) {c : Char}
    (h : c ∉ s) : c ∉ goTrimSuffix s suffix := by
  unfold goTrimSuffix
  cases hm : stripPre suffix.reverse s.reverse with
  | none => exact h
  | some rest =>
    intro hc
    simp only [List.mem_reverse] at hc
    have := stripPre_output_mem hm c hc
    simp only [List.mem_reverse] at this
    exact h this

theorem goSplitFirst_not_mem {s : Str} {c : Char} (h : c ∉ s) :
    goSplitFirst s c = none := by
  induction s with
  | nil => rfl
  | cons x rest ih =>
    simp only [List.mem_cons, not_or] at h
    simp [goSplitFirst, Ne.symm h.1, ih h.2]

theorem goSplitFirst_append {pre : Str} {c : Char} (rest : Str) (h : c ∉ pre) :
    goSplitFirst (pre ++ c :: rest) c = some (pre, rest) := by
  induction pre with
  | nil => simp [goSplitFirst]
  | cons x xs ih =>
    simp only [List.mem_cons, not_or] at h
    simp [goSplitFirst, Ne.symm h.1, ih h.2]

theorem goMapLookup_insert (m : GoMap) (k v k' : Str) :
    goMapLookup (goMapInsert m k v) k' =
      if k = k' then some v else goMapLookup m k' := by
  induction m with
  | nil => simp [goMapInsert, goMapLookup]
  | cons p rest ih =>
    by_cases hpk : p.1 = k
    · by_cases hkk : k = k' <;> simp [goMapInsert, goMapLookup, hpk, hkk]
    · by_cases hpk' : p.1 = k'
      · have h1 : ¬ k = k' := fun he => hpk (he ▸ hpk')
        have h2 : ¬ k' = k := fun he => h1 he.symm
        simp [goMapInsert, goMapLookup, hpk, hpk', h1, h2]
      · simp [goMapInsert, goMapLookup, hpk, hpk', ih]

theorem goMapLookup_append (a b : GoMap) (k : Str) :
    goMapLookup (a ++ b) k = optOrElse (goMapLookup a k) (goMapLookup b k) := by
  induction a with
  | nil => simp [goMapLookup, optOrElse]
  | cons p rest ih =>
    by_cases hp : p.1 = k <;> simp [goMapLookup, hp, optOrElse, ih]

-- ## SampleTags (stats.go lines 164-257)

/-- The `SampleTags` struct: the tag map and the cached JSON serialization
(field `json` of the source). A Go nil map is modelled as `[]`, which is
observationally equal for every modelled operation. -/
structure STags where
  tags : GoMap
  json : Option Str
deriving DecidableEq

/-- Explicit outcome of a Go call that may panic at run time. -/
inductive GoResult (α : Type) where
  | ok (a : α) : GoResult α
  | panicked : GoResult α
deriving DecidableEq

/-- `SampleTags.Get` (stats.go 176-182). The receiver is a possibly-nil
pointer, hence `Option STags`; a nil receiver returns the zero string and
`false`, otherwise the result of the map lookup `st.tags[key]` (value and
`ok` flag, the zero string when absent). -/
def sampleTagsGet : Option STags → Str → Str × Bool
  | none, _ => ([], false)
  | some st, key =>
    match goMapLookup st.tags key with
    | some v => (v, true)
    | none => ([], false)

/-- The content comparison loop of `SampleTags.IsEqual` (stats.go 189-197):
`len(st.tags) != len(other.tags)` short-circuits, then every key of `st.tags`
must be present in `other.tags` with the same value. -/
def goMapContentEq (a b : GoMap) : Bool :=
  a.length == b.length && a.all fun p => goMapLookup b p.1 == some p.2

/-- `SampleTags.IsEqual` (stats.go 185-198). The source's pointer fast path
`st == other` is subsumed by this model: two nil pointers compare equal
(first case), a nil and a non-nil pointer are distinct pointers and fall into
the explicit nil checks (second and third cases), and two non-nil pointers to
the *same* struct hold the identical map, for which the content comparison of
the fourth case returns `true` as well, so the fast path never changes the
returned value. -/
def sampleTagsIsEqual : Option STags → Option STags → Bool
  | none, none => true
  | none, some _ => false
  | some _, none => false
  | some a, some b => goMapContentEq a.tags b.tags

/-- Go `encoding/json` semantics of `json.Unmarshal(data, &m)` for a
`map[string]string`, with `data` already decoded to the list of key/value
pairs of the JSON object in textual order: per the package documentation the
existing map is reused, *keeping existing entries*, and the object's pairs are
stored into it one by one (so a later duplicate key in the object wins). -/
def jsonUnmarshalObjIntoMap (m : GoMap) (obj : GoMap) : GoMap :=
  obj.foldl (fun acc p => goMapInsert acc p.1 p.2) m

/-- `SampleTags.UnmarshalJSON` (stats.go 220-225) with the JSON text already
decoded to its list of key/value pairs. On a nil receiver the source executes
`*st = SampleTags{}`, a write through a nil pointer, which panics at run
time; otherwise `json.Unmarshal(data, &st.tags)` merges the object into the
existing map (`jsonUnmarshalObjIntoMap`) and the cached `json` field is left
untouched. Decode errors of malformed JSON text are outside the model. -/
def sampleTagsUnmarshalJSON : Option STags → GoMap → GoResult STags
  | none, _ => GoResult.panicked
  | some st, obj => GoResult.ok ⟨jsonUnmarshalObjIntoMap st.tags obj, st.json⟩

/-- `SampleTags.CloneTags` (stats.go 229-237): start from a fresh empty map
and copy every entry of the receiver's map into it; a nil receiver yields the
fresh empty map. -/
def sampleTagsCloneTags : Option STags → GoMap
  | none => []
  | some st => st.tags.foldl (fun acc p => goMapInsert acc p.1 p.2) []

/-- `IntoSampleTags` (stats.go 253-257). The argument is a Go *pointer to the
caller's map variable*; the call reads the map out of it and then executes
`*data = nil`. The model passes the variable's content in (`some m`, or
`none` for a variable already holding a nil map) and returns the constructed
`SampleTags` paired with the variable's content after the call. -/
def intoSampleTags (data : Option GoMap) : STags × Option GoMap :=
  (⟨data.getD [], none⟩, none)

theorem goMapLookup_foldl_insert (obj m : GoMap) (k : Str) :
    goMapLookup (obj.foldl (fun acc p => goMapInsert acc p.1 p.2) m) k =
      optOrElse (goMapLookup obj.reverse k) (goMapLookup m k) := by
  induction obj generalizing m with
  | nil => simp [goMapLookup, optOrElse]
  | cons p rest ih =>
    simp only [List.foldl_cons, List.reverse_cons]
    rw [ih, goMapLookup_append, goMapLookup_insert]
    cases goMapLookup rest.reverse k with
    | some v => simp [optOrElse]
    | none =>
      by_cases hp : p.1 = k
      · simp [optOrElse, goMapLookup, hp]
      · have h1 : ¬ k = p.1 := fun he => hp he.symm
        simp [optOrElse, goMapLookup, hp]

-- ## Type enumerations (stats.go lines 34-162)

/-- The two error values `ErrInvalidMetricType` and `ErrInvalidValueType`
(stats.go 61-64), distinct error kinds. -/
inductive GoErr where
  | invalidMetricType : GoErr
  | invalidValueType : GoErr
deriving DecidableEq

/-- The raw-JSON constant `"counter"` including its quotes (stats.go 35). -/
def counterString : Str := strOf "\"counter\""

/-- The raw-JSON constant `"gauge"` (stats.go 36). -/
def gaugeString : Str := strOf "\"gauge\""

/-- The raw-JSON constant `"trend"` (stats.go 37). -/
def trendString : Str := strOf "\"trend\""

/-- The raw-JSON constant `"rate"` (stats.go 38). -/
def rateString : Str := strOf "\"rate\""

/-- The raw-JSON constant `"default"` (stats.go 40). -/
def defaultString : Str := strOf "\"default\""

/-- The raw-JSON constant `"time"` (stats.go 41). -/
def timeString : Str := strOf "\"time\""

/-- The raw-JSON constant `"data"` (stats.go 42). -/
def dataString : Str := strOf "\"data\""

/-- `MetricType` is a Go `int`; `Counter = 0`, `Gauge = 1`, `Trend = 2`,
`Rate = 3` (stats.go 46-51). Modelled as `Int` so that out-of-range values
are expressible. -/
abbrev MetricTypeV := Int

/-- `ValueType`: `Default = 0`, `Time = 1`, `Data = 2` (stats.go 54-58). -/
abbrev ValueTypeV := Int

/-- `MetricType.MarshalJSON` (stats.go 70-83): the switch over the four valid
values, any other value yields `ErrInvalidMetricType`. -/
def metricTypeMarshalJSON (t : MetricTypeV) : Except GoErr Str :=
  if t = 0 then Except.ok counterString
  else if t = 1 then Except.ok gaugeString
  else if t = 2 then Except.ok trendString
  else if t = 3 then Except.ok rateString
  else Except.error GoErr.invalidMetricType

/-- `MetricType.UnmarshalJSON` (stats.go 86-101): the switch over
`string(data)`; the source writes the decoded value through the receiver
pointer, the model returns it. -/
def metricTypeUnmarshalJSON (data : Str) : Except GoErr MetricTypeV :=
  if data = counterString then Except.ok 0
  else if data = gaugeString then Except.ok 1
  else if data = trendString then Except.ok 2
  else if data = rateString then Except.ok 3
  else Except.error GoErr.invalidMetricType

/-- `ValueType.MarshalJSON` (stats.go 122-133). -/
def valueTypeMarshalJSON (t : ValueTypeV) : Except GoErr Str :=
  if t = 0 then Except.ok defaultString
  else if t = 1 then Except.ok timeString
  else if t = 2 then Except.ok dataString
  else Except.error GoErr.invalidValueType

/-- `ValueType.UnmarshalJSON` (stats.go 136-149). -/
def valueTypeUnmarshalJSON (data : Str) : Except GoErr ValueTypeV :=
  if data = defaultString then Except.ok 0
  else if data = timeString then Except.ok 1
  else if data = dataString then Except.ok 2
  else Except.error GoErr.invalidValueType

-- ## Metric (stats.go lines 267-326)

/-- The four `Sink` implementations a `Metric` can be constructed with
(stats.go 286-293). The sinks themselves are external collaborators; only
their identity matters here. -/
inductive SinkKind where
  | counterSink : SinkKind
  | gaugeSink : SinkKind
  | trendSink : SinkKind
  | rateSink : SinkKind
deriving DecidableEq

/-- The fields of `Metric` that `New` populates (stats.go 268-277, 297).
`Tainted`, `Thresholds`, `Submetrics` and `Sub` are left at their zero values
by `New` and are not touched by any claim, so they are not modelled. -/
structure MetricModel where
  Name : Str
  /-- The source field is named `Type`; renamed because `Type` is a Lean keyword. -/
  Typ : MetricTypeV
  Contains : ValueTypeV
  Sink : SinkKind
deriving DecidableEq

/-- `New` (stats.go 279-298): the value type defaults to `Default` (0) and is
`t[0]` when the variadic argument is non-empty; the switch over `typ` picks
the sink, any other value returns nil (`none`). -/
def newMetric (name : Str) (typ : MetricTypeV) (t : List ValueTypeV) : Option MetricModel :=
  let vt : ValueTypeV := match t with | [] => 0 | v :: _ => v
  if typ = 0 then some ⟨name, typ, vt, SinkKind.counterSink⟩
  else if typ = 1 then some ⟨name, typ, vt, SinkKind.gaugeSink⟩
  else if typ = 2 then some ⟨name, typ, vt, SinkKind.trendSink⟩
  else if typ = 3 then some ⟨name, typ, vt, SinkKind.rateSink⟩
  else none

/-- Go conversion `int(x)` from a float: truncation toward zero (64-bit
overflow is not modelled; no claim approaches it). -/
def ratTrunc (q : ℚ) : Int :=
  if 0 ≤ q then q.floor else -(-q).floor

/-- `strconv.FormatFloat(float64(n)/100, 'f', 2, 64)` for an integer `n`,
i.e. the decimal rendering of `n/100` with exactly two digits after the
point. At the single call site the argument of `FormatFloat` is
`float64(int(...))/100`; for every `n` within the claims' range the closest
`float64` to `n/100` rounds back to exactly these digits, so the exact
rendering below is faithful. -/
def formatFloat2 (n : Int) : Str :=
  let a := n.natAbs
  (if n < 0 then ['-'] else []) ++ (Nat.repr (a / 100)).data
    ++ '.' :: ((if a % 100 < 10 then ['0'] else []) ++ (Nat.repr (a % 100)).data)

/-- `Metric.HumanizeValue` (stats.go 300-326), Rate branch: the value is a
`float64`, modelled by an exact rational (the double-precision rounding of
`v*100*100` never crosses an integer boundary for the claims' inputs). The
non-Rate branches format through the external `time.Duration` and
`go-humanize` libraries and are not modelled (`none`); no claim touches
them. -/
def metricHumanizeValue (m : MetricModel) (v : ℚ) : Option Str :=
  if m.Typ = 3 then
    some (formatFloat2 (ratTrunc (v * 100 * 100)) ++ ['%'])
  else none

-- ## Submetric parsing (stats.go lines 328-362)

/-- The fields of `Submetric` (stats.go 329-335). The `Metric` back-reference
is resolved by an external collaborator and left nil by `NewSubmetric`; it is
not modelled. `Tags` is a possibly-nil `*SampleTags`. -/
structure SubmetricModel where
  Name : Str
  Parent : Str
  Suffix : Str
  Tags : Option STags
deriving DecidableEq

/-- One iteration of the clause loop of `NewSubmetric` (stats.go 346-360):
an empty clause is skipped; the clause is split on the first colon; quoting
characters and then surrounding whitespace are trimmed from the key; a clause
without a colon stores the empty string, otherwise the trimmed value. -/
def parseClause (tags : GoMap) (kv : Str) : GoMap :=
  if kv = [] then tags
  else
    match goSplitFirst kv ':' with
    | none => goMapInsert tags (goTrimSpace (goTrim kv quoteCutset)) []
    | some (p0, p1) =>
        goMapInsert tags (goTrimSpace (goTrim p0 quoteCutset))
          (goTrimSpace (goTrim p1 quoteCutset))

/-- The tag map built by `NewSubmetric` from the filter body: the body is
split on commas and the clause loop is folded over the pieces. -/
def submetricFilterTags (body : Str) : GoMap :=
  (goSplit body ',').foldl parseClause []

/-- `NewSubmetric` (stats.go 338-362): strip one trailing right brace, split
on the first left brace; without a left brace return the stripped string and
a `Submetric` carrying only `Name` (all other fields at their zero values);
otherwise parse the filter body and consume the resulting map into the
submetric's tag set via `IntoSampleTags`. -/
def newSubmetric (name : Str) : Str × SubmetricModel :=
  let trimmed := goTrimSuffix name [curlyClose]
  match goSplitFirst trimmed curlyOpen with
  | none => (trimmed, ⟨name, [], [], none⟩)
  | some (p0, p1) =>
      (p0, ⟨name, p0, p1, some (intoSampleTags (some (submetricFilterTags p1))).1⟩)

theorem ratFloor_eq_intFloor (q : ℚ) : q.floor = ⌊q⌋ :=
  (Rat.floor_def' q).trans Rat.floor_def.symm

-- ## Claim theorems

/-- C1, counterexample: `IsEqual` between an unset (nil) tag set and a
non-unset tag set whose map is empty returns `false`, not `true` as the claim
states — the source returns `false` as soon as exactly one side is nil,
without looking at the other side's contents. -/
theorem isEqual_unset_vs_empty_ne :
    sampleTagsIsEqual none (some ⟨[], none⟩) = false := rfl

/-- C1, amended: `IsEqual` between two unset (nil) tag sets returns `true`;
between an unset tag set and a non-unset tag set it returns `false`, in both
argument orders and even when the non-unset set is empty. -/
theorem isEqual_unset_spec :
    sampleTagsIsEqual none none = true
    ∧ ∀ t : STags,
        sampleTagsIsEqual none (some t) = false
        ∧ sampleTagsIsEqual (some t) none = false :=
  ⟨rfl, fun _ => ⟨rfl, rfl⟩⟩

/-- C2, counterexample: decoding the JSON object with the single pair
`b ↦ 2` into a `SampleTags` already holding `a ↦ 1` does not overwrite the
contents — the prior key `a` survives with its old value, because Go's
`json.Unmarshal` reuses a non-nil map keeping its existing entries. -/
theorem unmarshalJSON_prior_key_survives :
    sampleTagsUnmarshalJSON (some ⟨[(strOf "a", strOf "1")], none⟩)
        [(strOf "b", strOf "2")]
      = GoResult.ok ⟨[(strOf "a", strOf "1"), (strOf "b", strOf "2")], none⟩
    ∧ sampleTagsGet
        (some ⟨[(strOf "a", strOf "1"), (strOf "b", strOf "2")], none⟩)
        (strOf "a") = (strOf "1", true) := by
  decide

/-- C2, amended: for every `SampleTags` instance (populated or not) and every
decoded JSON object, `UnmarshalJSON` merges the object into the instance's
map: the call succeeds, the cached serialization field is untouched, and
afterwards a key bound in the object (its last occurrence winning) has the
object's value while every other key keeps its prior value. -/
theorem unmarshalJSON_merges :
    ∀ (st : STags) (obj : GoMap) (k : Str),
      sampleTagsUnmarshalJSON (some st) obj
          = GoResult.ok ⟨jsonUnmarshalObjIntoMap st.tags obj, st.json⟩
      ∧ goMapLookup (jsonUnmarshalObjIntoMap st.tags obj) k
          = optOrElse (goMapLookup obj.reverse k) (goMapLookup st.tags k) :=
  fun st obj k => ⟨rfl, goMapLookup_foldl_insert obj st.tags k⟩

/-- C3, code bug: calling `UnmarshalJSON` on an unset (nil) receiver panics
— the source executes `*st = SampleTags\x7b\x7d` through the nil pointer —
although the struct's own documentation says all methods should not panic
even when called on a nil pointer. Evaluation of the model at the failing
input. -/
theorem unmarshalJSON_nil_receiver_panics :
    sampleTagsUnmarshalJSON none [(strOf "a", strOf "1")] = GoResult.panicked := rfl

/-- C4 (confirmed): for every input of the form name-brace-filterBody-brace
(the parent name containing no left brace), `NewSubmetric` returns the parent
name, keeps the original string as `Name`, the parent as `Parent`, the raw
body as `Suffix`, and builds the tag set by folding the clause parser over
the comma-split body. The clause parser skips empty clauses, splits a clause
at its first colon, trims quoting characters and then surrounding whitespace
from key and value, maps a colon-free clause to the empty-string value,
lets the last occurrence of a duplicate key win, and parses a
whitespace-only clause to the empty-string key. -/
theorem newSubmetric_braced_spec :
    (∀ nm body : Str, curlyOpen ∉ nm →
        newSubmetric ((nm ++ curlyOpen :: body) ++ [curlyClose])
          = (nm, ⟨(nm ++ curlyOpen :: body) ++ [curlyClose], nm, body,
                  some ⟨submetricFilterTags body, none⟩⟩))
    ∧ (∀ tags : GoMap, parseClause tags [] = tags)
    ∧ (∀ (tags : GoMap) (kv : Str), kv ≠ [] → ':' ∉ kv →
        parseClause tags kv
          = goMapInsert tags (goTrimSpace (goTrim kv quoteCutset)) [])
    ∧ (∀ (tags : GoMap) (k v : Str), ':' ∉ k →
        parseClause tags (k ++ ':' :: v)
          = goMapInsert tags (goTrimSpace (goTrim k quoteCutset))
              (goTrimSpace (goTrim v quoteCutset)))
    ∧ goMapLookup (submetricFilterTags (strOf "a:1,a:2")) (strOf "a")
        = some (strOf "2")
    ∧ submetricFilterTags (strOf "  ") = [([], [])]
    ∧ submetricFilterTags (strOf ",a:1,") = [(strOf "a", strOf "1")] := by
  refine ⟨?_, ?_, ?_, ?_, by decide, by decide, by decide⟩
  · intro nm body h
    simp only [newSubmetric, goTrimSuffix_single (nm ++ curlyOpen :: body) curlyClose,
      goSplitFirst_append body h]
    rfl
  · intro tags
    simp [parseClause]
  · intro tags kv h1 h2
    unfold parseClause
    rw [if_neg h1, goSplitFirst_not_mem h2]
  · intro tags k v h
    have hne : k ++ ':' :: v ≠ [] := by simp
    unfold parseClause
    rw [if_neg hne, goSplitFirst_append v h]

/-- C4, witness: the braced-input part of `newSubmetric_braced_spec` applied
at the concrete input with parent name m and filter body a:1. -/
theorem newSubmetric_braced_witness :
    newSubmetric ((strOf "m" ++ curlyOpen :: strOf "a:1") ++ [curlyClose])
      = (strOf "m", ⟨(strOf "m" ++ curlyOpen :: strOf "a:1") ++ [curlyClose],
          strOf "m", strOf "a:1", some ⟨[(strOf "a", strOf "1")], none⟩⟩) := by
  have h := newSubmetric_braced_spec.1 (strOf "m") (strOf "a:1") (by decide)
  rw [h]
  decide

/-- C5, counterexample: the input errors-followed-by-a-right-brace contains
no left brace, yet the parent name `NewSubmetric` returns is the input with
the trailing brace stripped — not the whole input — and the returned
`Submetric`'s `Parent` field is the empty string — not the input. -/
theorem newSubmetric_plain_cex :
    (newSubmetric (strOf "errors\x7d")).1 ≠ strOf "errors\x7d"
    ∧ (newSubmetric (strOf "errors\x7d")).2.Parent ≠ strOf "errors\x7d" := by
  decide

/-- C5, amended: for every input string containing no left brace,
`NewSubmetric` returns as parent name the input with one trailing right brace
removed when present (the input unchanged otherwise), and a `Submetric` whose
`Name` equals the input unchanged, whose `Parent` field is left at the empty
string, and whose `Tags` are nil. -/
theorem newSubmetric_plain_spec :
    ∀ s : Str, curlyOpen ∉ s →
      newSubmetric s = (goTrimSuffix s [curlyClose], ⟨s, [], [], none⟩) := by
  intro s h
  have h2 : curlyOpen ∉ goTrimSuffix s [curlyClose] :=
    mem_goTrimSuffix [curlyClose] h
  simp only [newSubmetric, goSplitFirst_not_mem h2]

/-- C5, witness: `newSubmetric_plain_spec` applied at the input errors. -/
theorem newSubmetric_plain_witness :
    newSubmetric (strOf "errors")
      = (strOf "errors", ⟨strOf "errors", [], [], none⟩) := by
  rw [newSubmetric_plain_spec (strOf "errors") (by decide)]
  decide

/-- C6 (confirmed): for every valid `MetricType` value (0-3) and every valid
`ValueType` value (0-2), decoding the bytes produced by `MarshalJSON` yields
the original value back. -/
theorem typeEncoding_roundtrip :
    (∀ t : MetricTypeV, t = 0 ∨ t = 1 ∨ t = 2 ∨ t = 3 →
        (metricTypeMarshalJSON t).bind metricTypeUnmarshalJSON = Except.ok t)
    ∧ (∀ v : ValueTypeV, v = 0 ∨ v = 1 ∨ v = 2 →
        (valueTypeMarshalJSON v).bind valueTypeUnmarshalJSON = Except.ok v) := by
  constructor
  · rintro t (rfl | rfl | rfl | rfl) <;> rfl
  · rintro v (rfl | rfl | rfl) <;> rfl

/-- C6, witness: the round-trip theorem applied at `Rate` (3). -/
theorem typeEncoding_roundtrip_witness :
    (metricTypeMarshalJSON 3).bind metricTypeUnmarshalJSON = Except.ok 3 :=
  typeEncoding_roundtrip.1 3 (by decide)

/-- C7 (confirmed): `MetricType.UnmarshalJSON` fails with the
invalid-metric-type error exactly on the literals outside the four valid
quoted strings; `ValueType.UnmarshalJSON` fails with the invalid-value-type
error exactly on the literals outside its three valid quoted strings; the two
error kinds are distinct; and `MarshalJSON` on a numeric value outside the
closed enumeration reports the corresponding error instead of output. -/
theorem invalidType_errors :
    (∀ s : Str,
        metricTypeUnmarshalJSON s = Except.error GoErr.invalidMetricType
          ↔ ¬(s = counterString ∨ s = gaugeString ∨ s = trendString ∨ s = rateString))
    ∧ (∀ s : Str,
        valueTypeUnmarshalJSON s = Except.error GoErr.invalidValueType
          ↔ ¬(s = defaultString ∨ s = timeString ∨ s = dataString))
    ∧ (∀ t : MetricTypeV, ¬(t = 0 ∨ t = 1 ∨ t = 2 ∨ t = 3) →
        metricTypeMarshalJSON t = Except.error GoErr.invalidMetricType)
    ∧ (∀ v : ValueTypeV, ¬(v = 0 ∨ v = 1 ∨ v = 2) →
        valueTypeMarshalJSON v = Except.error GoErr.invalidValueType)
    ∧ GoErr.invalidMetricType ≠ GoErr.invalidValueType := by
  refine ⟨?_, ?_, ?_, ?_, by decide⟩
  · intro s
    unfold metricTypeUnmarshalJSON
    split_ifs with h1 h2 h3 h4 <;> simp_all
  · intro s
    unfold valueTypeUnmarshalJSON
    split_ifs with h1 h2 h3 <;> simp_all
  · intro t h
    simp only [not_or] at h
    obtain ⟨h0, h1, h2, h3⟩ := h
    simp [metricTypeMarshalJSON, h0, h1, h2, h3]
  · intro v h
    simp only [not_or] at h
    obtain ⟨h0, h1, h2⟩ := h
    simp [valueTypeMarshalJSON, h0, h1, h2]

/-- C7, witness: encoding the out-of-range metric type 9 reports the
invalid-metric-type error. -/
theorem invalidType_errors_witness :
    metricTypeMarshalJSON 9 = Except.error GoErr.invalidMetricType :=
  invalidType_errors.2.2.1 9 (by decide)

/-- C8 (confirmed): `New` returns no metric exactly when the metric type is
outside 0-3; otherwise the returned metric carries the given name and type,
the sink implied by the type (Counter to the counter sink, Gauge to the gauge
sink, Trend to the trend sink, Rate to the rate sink), and value type
`Default` (0) when the optional argument is omitted. -/
theorem newMetric_spec :
    ∀ (name : Str) (typ : MetricTypeV) (ts : List ValueTypeV),
      (newMetric name typ ts = none ↔ ¬(typ = 0 ∨ typ = 1 ∨ typ = 2 ∨ typ = 3))
      ∧ (∀ m : MetricModel, newMetric name typ ts = some m →
          m.Name = name ∧ m.Typ = typ
          ∧ (typ = 0 → m.Sink = SinkKind.counterSink)
          ∧ (typ = 1 → m.Sink = SinkKind.gaugeSink)
          ∧ (typ = 2 → m.Sink = SinkKind.trendSink)
          ∧ (typ = 3 → m.Sink = SinkKind.rateSink)
          ∧ (ts = [] → m.Contains = 0)) := by
  intro name typ ts
  constructor
  · unfold newMetric
    split_ifs with h0 h1 h2 h3 <;> simp_all
  · intro m hm
    simp only [newMetric] at hm
    split_ifs at hm with h0 h1 h2 h3
    · obtain rfl := Option.some.inj hm
      subst h0
      refine ⟨rfl, rfl, ?_, ?_, ?_, ?_, ?_⟩ <;> intro he <;>
        first | rfl | (exact absurd he (by decide)) | (subst he; rfl)
    · obtain rfl := Option.some.inj hm
      subst h1
      refine ⟨rfl, rfl, ?_, ?_, ?_, ?_, ?_⟩ <;> intro he <;>
        first | rfl | (exact absurd he (by decide)) | (subst he; rfl)
    · obtain rfl := Option.some.inj hm
      subst h2
      refine ⟨rfl, rfl, ?_, ?_, ?_, ?_, ?_⟩ <;> intro he <;>
        first | rfl | (exact absurd he (by decide)) | (subst he; rfl)
    · obtain rfl := Option.some.inj hm
      subst h3
      refine ⟨rfl, rfl, ?_, ?_, ?_, ?_, ?_⟩ <;> intro he <;>
        first | rfl | (exact absurd he (by decide)) | (subst he; rfl)

/-- C8, witness: the populated-metric part of `newMetric_spec` applied at a
counter metric constructed with the value type argument omitted. -/
theorem newMetric_spec_witness :
    (⟨[], 0, 0, SinkKind.counterSink⟩ : MetricModel).Name = []
    ∧ (⟨[], 0, 0, SinkKind.counterSink⟩ : MetricModel).Typ = 0
    ∧ ((0 : MetricTypeV) = 0 →
        (⟨[], 0, 0, SinkKind.counterSink⟩ : MetricModel).Sink = SinkKind.counterSink)
    ∧ ((0 : MetricTypeV) = 1 →
        (⟨[], 0, 0, SinkKind.counterSink⟩ : MetricModel).Sink = SinkKind.gaugeSink)
    ∧ ((0 : MetricTypeV) = 2 →
        (⟨[], 0, 0, SinkKind.counterSink⟩ : MetricModel).Sink = SinkKind.trendSink)
    ∧ ((0 : MetricTypeV) = 3 →
        (⟨[], 0, 0, SinkKind.counterSink⟩ : MetricModel).Sink = SinkKind.rateSink)
    ∧ (([] : List ValueTypeV) = [] →
        (⟨[], 0, 0, SinkKind.counterSink⟩ : MetricModel).Contains = 0) :=
  (newMetric_spec [] 0 []).2 ⟨[], 0, 0, SinkKind.counterSink⟩ rfl

/-- C9 (confirmed): `HumanizeValue` on a metric of type Rate renders the
value as a percentage truncated — not rounded — to two decimal places: at
`0.12345` it returns the string 12.34%, and in general (for nonnegative
values) the rendered integer-hundredths amount is the truncation of
`v*100*100`, which never exceeds the exact value and undershoots it by less
than one. -/
theorem humanizeRate_spec :
    metricHumanizeValue ⟨strOf "my_rate", 3, 0, SinkKind.rateSink⟩ (12345 / 100000)
      = some (strOf "12.34%")
    ∧ (∀ (m : MetricModel) (v : ℚ), m.Typ = 3 → 0 ≤ v →
        metricHumanizeValue m v
            = some (formatFloat2 (ratTrunc (v * 100 * 100)) ++ ['%'])
        ∧ ((ratTrunc (v * 100 * 100) : ℚ) ≤ v * 100 * 100
        ∧ v * 100 * 100 < ratTrunc (v * 100 * 100) + 1)) := by
  constructor
  · have htr : ratTrunc ((12345 / 100000 : ℚ) * 100 * 100) = 1234 := by
      rw [ratTrunc, if_pos (by norm_num), ratFloor_eq_intFloor]
      norm_num
    simp only [metricHumanizeValue, htr]
    decide
  · intro m v hm hv
    have hnn : (0 : ℚ) ≤ v * 100 * 100 := by positivity
    have htr : ratTrunc (v * 100 * 100) = ⌊v * 100 * 100⌋ := by
      rw [ratTrunc, if_pos hnn, ratFloor_eq_intFloor]
    refine ⟨?_, ?_, ?_⟩
    · simp [metricHumanizeValue, hm]
    · rw [htr]
      exact Int.floor_le _
    · rw [htr]
      exact Int.lt_floor_add_one _

/-- C9, witness: the Rate part of `humanizeRate_spec` applied at value 1/2
(rendered as 50.00%). -/
theorem humanizeRate_spec_witness :
    metricHumanizeValue ⟨[], 3, 0, SinkKind.rateSink⟩ (1 / 2)
        = some (formatFloat2 (ratTrunc ((1 / 2 : ℚ) * 100 * 100)) ++ ['%'])
    ∧ ((ratTrunc ((1 / 2 : ℚ) * 100 * 100) : ℚ) ≤ (1 / 2 : ℚ) * 100 * 100
    ∧ (1 / 2 : ℚ) * 100 * 100 < ratTrunc ((1 / 2 : ℚ) * 100 * 100) + 1) :=
  humanizeRate_spec.2 ⟨[], 3, 0, SinkKind.rateSink⟩ (1 / 2) rfl (by norm_num)

/-- C10 (confirmed): `IntoSampleTags` on a (pointer to a) non-nil map sets
the caller's map variable to nil as part of the call, and the constructed
`SampleTags` holds exactly the map the variable held at the time of the call
(with no cached serialization). -/
theorem intoSampleTags_spec :
    ∀ m : GoMap,
      (intoSampleTags (some m)).2 = none
      ∧ (intoSampleTags (some m)).1 = ⟨m, none⟩ :=
  fun _ => ⟨rfl, rfl⟩
